import Mathlib

/-!
Verification of the Expense Tracker database layer (src/db/database.py) and its
tool wiring (src/main.py, src/tools, src/resources).

The SQLite backend (the default fallback) is embedded shallowly:
* a table is a list of rows, a row is a structure with the columns of the
  CREATE TABLE statements (database.py lines 168-204);
* TEXT comparison (dates are stored as TEXT and compared with `>=`, `<=`, `<`)
  is bytewise lexicographic order, matching the SQLite BINARY collation;
* REAL amounts are modelled exactly as rationals;
* the current UTC timestamp, produced inside the Python functions by
  datetime.now, is passed in as an explicit argument;
* ORDER BY is modelled by an insertion sort with the corresponding comparator,
  LIMIT by List.take, SELECT ... WHERE by List.filter, fetchone by List.find?.
-/

namespace ExpenseTracker

/-! ### Bytewise text order (SQLite BINARY collation on TEXT columns) -/

/-- Code point of a character, the key SQLite compares TEXT by
(for the ASCII dates and categories of this schema, byte order and
code-point order coincide). -/
def chN (c : Char) : Nat := c.toNat

/-- Lexicographic strict order on character lists. -/
def listLtB : List Char → List Char → Bool
  | [], [] => false
  | [], _ :: _ => true
  | _ :: _, [] => false
  | a :: as, b :: bs =>
    if chN a < chN b then true
    else if chN b < chN a then false
    else listLtB as bs

/-- SQL `text1 < text2`. -/
def strLtB (a b : String) : Bool := listLtB a.data b.data

/-- SQL `text1 <= text2`. -/
def strLeB (a b : String) : Bool := !strLtB b a

theorem listLtB_irrefl : ∀ a, listLtB a a = false := by
  intro a
  induction a with
  | nil => rfl
  | cons x xs ih => simp [listLtB, ih]

theorem listLtB_trans : ∀ a b c, listLtB a b = true → listLtB b c = true →
    listLtB a c = true := by
  intro a
  induction a with
  | nil =>
    intro b c hab hbc
    cases b with
    | nil => simp [listLtB] at hab
    | cons y ys =>
      cases c with
      | nil => simp [listLtB] at hbc
      | cons z zs => simp [listLtB]
  | cons x xs ih =>
    intro b c hab hbc
    cases b with
    | nil => simp [listLtB] at hab
    | cons y ys =>
      cases c with
      | nil => simp [listLtB] at hbc
      | cons z zs =>
        simp only [listLtB] at hab hbc ⊢
        by_cases hxy : chN x < chN y
        · by_cases hyz : chN y < chN z
          · simp [Nat.lt_trans hxy hyz]
          · by_cases hzy : chN z < chN y
            · simp [hyz, hzy] at hbc
            · have hyz' : chN y = chN z :=
                Nat.le_antisymm (Nat.le_of_not_lt hzy) (Nat.le_of_not_lt hyz)
              simp [hyz' ▸ hxy]
        · by_cases hyx : chN y < chN x
          · simp [hxy, hyx] at hab
          · have hxy' : chN x = chN y :=
              Nat.le_antisymm (Nat.le_of_not_lt hyx) (Nat.le_of_not_lt hxy)
            simp [hxy, hyx] at hab
            by_cases hyz : chN y < chN z
            · simp [hxy' ▸ hyz]
            · by_cases hzy : chN z < chN y
              · simp [hyz, hzy] at hbc
              · simp [hyz, hzy] at hbc
                have h1 : ¬ chN x < chN z := by omega
                have h2 : ¬ chN z < chN x := by omega
                simp [h1, h2]
                exact ih ys zs hab hbc

theorem listLtB_asymm : ∀ a b, listLtB a b = true → listLtB b a = true → False := by
  intro a b hab hba
  have := listLtB_trans a b a hab hba
  rw [listLtB_irrefl] at this
  exact Bool.false_ne_true this

/-- Negated-lt transitivity: the `<=` reading of the text order is transitive. -/
theorem listLtB_nlt_trans : ∀ a b c, listLtB b a = false → listLtB c b = false →
    listLtB c a = false := by
  intro a
  induction a with
  | nil =>
    intro b c _ _
    cases c with
    | nil => rfl
    | cons z zs => rfl
  | cons x xs ih =>
    intro b c hba hcb
    cases b with
    | nil => simp [listLtB] at hba
    | cons y ys =>
      cases c with
      | nil => simp [listLtB] at hcb
      | cons z zs =>
        simp only [listLtB] at hba hcb ⊢
        by_cases hyx : chN y < chN x
        · rw [if_pos hyx] at hba
          exact absurd hba (by simp)
        · by_cases hzy : chN z < chN y
          · rw [if_pos hzy] at hcb
            exact absurd hcb (by simp)
          · have hzx : ¬ chN z < chN x := by omega
            rw [if_neg hzx]
            by_cases hxz : chN x < chN z
            · rw [if_pos hxz]
            · rw [if_neg hxz]
              have hxy : ¬ chN x < chN y := by omega
              have hyz : ¬ chN y < chN z := by omega
              rw [if_neg hyx, if_neg hxy] at hba
              rw [if_neg hzy, if_neg hyz] at hcb
              exact ih ys zs hba hcb

theorem strLeB_trans : ∀ a b c, strLeB a b = true → strLeB b c = true →
    strLeB a c = true := by
  intro a b c hab hbc
  simp only [strLeB, Bool.not_eq_true'] at hab hbc ⊢
  exact listLtB_nlt_trans a.data b.data c.data hab hbc

theorem strLeB_total : ∀ a b, (strLeB a b || strLeB b a) = true := by
  intro a b
  simp only [strLeB, strLtB, Bool.or_eq_true, Bool.not_eq_true']
  cases h1 : listLtB b.data a.data with
  | false => exact Or.inl rfl
  | true =>
    cases h2 : listLtB a.data b.data with
    | false => exact Or.inr rfl
    | true => exact absurd (listLtB_asymm _ _ h2 h1) id

theorem strLtB_le_of_lt : ∀ a b, strLtB a b = true → strLeB a b = true := by
  intro a b h
  simp only [strLeB, strLtB, Bool.not_eq_true']
  cases h2 : listLtB b.data a.data with
  | false => rfl
  | true => exact absurd (listLtB_asymm _ _ h h2) id

/-! ### Insertion sort (model of SQL ORDER BY) -/

/-- Insert an element into a list sorted by the comparator. -/
def insSorted {α : Type} (le : α → α → Bool) (a : α) : List α → List α
  | [] => [a]
  | b :: bs => if le a b then a :: b :: bs else b :: insSorted le a bs

/-- Sort a list by the comparator (model of SQL ORDER BY; SQL does not
specify the algorithm, only the resulting order). -/
def sortByB {α : Type} (le : α → α → Bool) : List α → List α
  | [] => []
  | a :: as => insSorted le a (sortByB le as)

theorem mem_insSorted {α : Type} (le : α → α → Bool) (a x : α) :
    ∀ l, x ∈ insSorted le a l ↔ x = a ∨ x ∈ l := by
  intro l
  induction l with
  | nil => simp [insSorted]
  | cons b bs ih =>
    simp only [insSorted]
    by_cases h : le a b = true
    · simp [h]
    · simp [h, ih]
      tauto

theorem mem_sortByB {α : Type} (le : α → α → Bool) (x : α) :
    ∀ l, x ∈ sortByB le l ↔ x ∈ l := by
  intro l
  induction l with
  | nil => simp [sortByB]
  | cons a as ih => simp [sortByB, mem_insSorted, ih]

theorem pairwise_insSorted {α : Type} (le : α → α → Bool)
    (htotal : ∀ p q, (le p q || le q p) = true)
    (htrans : ∀ p q r, le p q = true → le q r = true → le p r = true) (a : α) :
    ∀ l, List.Pairwise (fun p q => le p q = true) l →
      List.Pairwise (fun p q => le p q = true) (insSorted le a l) := by
  intro l
  induction l with
  | nil => intro _; simp [insSorted]
  | cons b bs ih =>
    intro hp
    rw [List.pairwise_cons] at hp
    obtain ⟨hb, hbs⟩ := hp
    simp only [insSorted]
    by_cases h : le a b = true
    · rw [if_pos h, List.pairwise_cons]
      refine ⟨?_, List.pairwise_cons.mpr ⟨hb, hbs⟩⟩
      intro x hx
      rcases List.mem_cons.mp hx with rfl | hx'
      · exact h
      · exact htrans a b x h (hb x hx')
    · rw [if_neg h, List.pairwise_cons]
      refine ⟨?_, ih hbs⟩
      intro x hx
      rcases (mem_insSorted le a x bs).mp hx with heq | hx'
      · subst heq
        have htot := htotal x b
        rw [Bool.or_eq_true] at htot
        rcases htot with h1 | h1
        · exact absurd h1 h
        · exact h1
      · exact hb x hx'

theorem pairwise_sortByB {α : Type} (le : α → α → Bool)
    (htotal : ∀ p q, (le p q || le q p) = true)
    (htrans : ∀ p q r, le p q = true → le q r = true → le p r = true) :
    ∀ l, List.Pairwise (fun p q => le p q = true) (sortByB le l) := by
  intro l
  induction l with
  | nil => simp [sortByB]
  | cons a as ih => exact pairwise_insSorted le htotal htrans a _ ih

/-! ### Rounding (Python round: banker rounding, half to even) -/

/-- Python round to the nearest integer, ties to the even neighbour. -/
def pyRound (q : ℚ) : ℤ :=
  let f : ℤ := q.floor
  let r : ℚ := q - (f : ℚ)
  if r < 1 / 2 then f
  else if 1 / 2 < r then f + 1
  else if f % 2 = 0 then f else f + 1

/-- Python round(q, nd). -/
def roundTo (nd : Nat) (q : ℚ) : ℚ :=
  ((pyRound (q * (10 : ℚ) ^ nd) : ℤ) : ℚ) / (10 : ℚ) ^ nd

theorem roundTo_zero (nd : Nat) : roundTo nd 0 = 0 := by
  have h0 : (0 : ℚ) * (10 : ℚ) ^ nd = 0 := zero_mul _
  rw [roundTo, h0]
  have hfl : pyRound 0 = 0 := by norm_num [pyRound, Rat.floor_def']
  rw [hfl]
  simp

/-! ### Data model

Rows of the three tables created by init_db (database.py lines 168-204).
The SQLite declared types map to: INTEGER -> Nat (ids, month, year),
TEXT -> String, nullable TEXT -> Option String, REAL -> rationals
(exact model of the numeric values the layer stores and adds). -/

/-- Row of the users table (database.py lines 168-176). -/
structure UserRow where
  id : Nat
  name : String
  email : Option String
  api_key : String
  created_at : String
deriving DecidableEq

/-- Row of the expenses table (database.py lines 178-191). -/
structure ExpenseRow where
  id : Nat
  user_id : Nat
  title : String
  amount : ℚ
  category : String
  date : String
  notes : Option String
  created_at : String
  updated_at : String
deriving DecidableEq

/-- Row of the budgets table (database.py lines 193-204), with its
UNIQUE(user_id, category, month, year) constraint stated separately
as `budgetKeyCount s u c m y <= 1`. -/
structure BudgetRow where
  id : Nat
  user_id : Nat
  category : String
  limit_amount : ℚ
  month : Nat
  year : Nat
deriving DecidableEq

/-- The whole database: three tables plus the AUTOINCREMENT counters
that produce fresh primary keys. -/
structure DBState where
  users : List UserRow
  expenses : List ExpenseRow
  budgets : List BudgetRow
  nextExpenseId : Nat
  nextBudgetId : Nat
  nextUserId : Nat
deriving DecidableEq

/-- Python truthiness of an optional string argument: the source guards
optional filters with `if category:` and so on, which skips both None and
the empty string. -/
def truthy : Option String → Bool
  | none => false
  | some s => !s.data.isEmpty

/-! ### CRUD on expenses (database.py lines 393-501) -/

/-- insert_expense (database.py lines 393-413): INSERT the row with both
timestamps set to the current UTC time, return the materialized row with
the engine-assigned id.  The current time is an explicit argument. -/
def insert_expense (s : DBState) (user_id : Nat) (title : String) (amount : ℚ)
    (category : String) (date : String) (notes : Option String) (now : String) :
    DBState × ExpenseRow :=
  let row : ExpenseRow :=
    { id := s.nextExpenseId, user_id := user_id, title := title, amount := amount,
      category := category, date := date, notes := notes,
      created_at := now, updated_at := now }
  ({ s with expenses := s.expenses ++ [row], nextExpenseId := s.nextExpenseId + 1 }, row)

/-- The WHERE clause built by fetch_expenses (database.py lines 423-433):
user_id always, then each truthy filter AND-combined. -/
def expFilter (user_id : Nat) (category start_date end_date : Option String)
    (e : ExpenseRow) : Bool :=
  e.user_id == user_id
  && (if truthy category then e.category == category.getD "" else true)
  && (if truthy start_date then strLeB (start_date.getD "") e.date else true)
  && (if truthy end_date then strLeB e.date (end_date.getD "") else true)

/-- Comparator of ORDER BY date DESC. -/
def dateDescB (a b : ExpenseRow) : Bool := strLeB b.date a.date

/-- fetch_expenses (database.py lines 416-437): SELECT * with the optional
filters, ORDER BY date DESC, LIMIT ?.  The source default for limit is 50. -/
def fetch_expenses (s : DBState) (user_id : Nat)
    (category start_date end_date : Option String) (limit : Nat) : List ExpenseRow :=
  (sortByB dateDescB (s.expenses.filter (expFilter user_id category start_date end_date))).take
    limit

/-- fetch_expense_by_id (database.py lines 440-445): SELECT * WHERE id = ?
AND user_id = ?, fetchone; None is the absence marker. -/
def fetch_expense_by_id (s : DBState) (user_id expense_id : Nat) : Option ExpenseRow :=
  s.expenses.find? (fun e => e.id == expense_id && e.user_id == user_id)

/-- The keyword arguments of update_expense: a field is updated exactly when
its entry is present (the Python **fields dict).  The notes entry carries an
Option because the notes column is nullable. -/
structure UpdateFields where
  title : Option String
  amount : Option ℚ
  category : Option String
  date : Option String
  notes : Option (Option String)
deriving DecidableEq

/-- Python `if not fields:` — the dict is empty. -/
def UpdateFields.isEmpty (f : UpdateFields) : Bool :=
  f.title.isNone && f.amount.isNone && f.category.isNone && f.date.isNone && f.notes.isNone

/-- The SET clause of update_expense applied to one row: each supplied field
plus updated_at = now (database.py lines 451-452). -/
def applyFields (f : UpdateFields) (now : String) (e : ExpenseRow) : ExpenseRow :=
  { e with title := f.title.getD e.title, amount := f.amount.getD e.amount,
           category := f.category.getD e.category, date := f.date.getD e.date,
           notes := f.notes.getD e.notes, updated_at := now }

/-- update_expense (database.py lines 448-455): empty field set returns the
current row via fetch_expense_by_id without touching the table; otherwise
UPDATE ... WHERE id = ? AND user_id = ? and read the row back. -/
def update_expense (s : DBState) (user_id expense_id : Nat) (f : UpdateFields)
    (now : String) : DBState × Option ExpenseRow :=
  if f.isEmpty then (s, fetch_expense_by_id s user_id expense_id)
  else
    let g := fun e : ExpenseRow =>
      if e.id == expense_id && e.user_id == user_id then applyFields f now e else e
    let s2 := { s with expenses := s.expenses.map g }
    (s2, fetch_expense_by_id s2 user_id expense_id)

/-- delete_expense (database.py lines 458-463): DELETE WHERE id = ? AND
user_id = ?, return rowcount > 0. -/
def delete_expense (s : DBState) (user_id expense_id : Nat) : DBState × Bool :=
  let remaining := s.expenses.filter (fun e => !(e.id == expense_id && e.user_id == user_id))
  ({ s with expenses := remaining }, decide (remaining.length < s.expenses.length))

/-- fetch_all_categories (database.py lines 496-501): SELECT DISTINCT category
WHERE user_id = ? ORDER BY category. -/
def fetch_all_categories (s : DBState) (user_id : Nat) : List String :=
  sortByB strLeB
    (((s.expenses.filter (fun e => e.user_id == user_id)).map (fun e => e.category)).dedup)

/-! ### Budgets (database.py lines 508-582) -/

/-- The uniqueness key of the budgets table. -/
def budgetKeyMatch (user_id : Nat) (category : String) (month year : Nat)
    (b : BudgetRow) : Bool :=
  b.user_id == user_id && b.category == category && b.month == month && b.year == year

/-- Number of budget rows with the given key; the SQL UNIQUE constraint makes
this at most 1 in every reachable state. -/
def budgetKeyCount (s : DBState) (user_id : Nat) (category : String)
    (month year : Nat) : Nat :=
  s.budgets.countP (budgetKeyMatch user_id category month year)

/-- upsert_budget (database.py lines 508-539): INSERT ... ON CONFLICT
(user_id, category, month, year) DO UPDATE SET limit_amount = excluded
(the MySQL branch, ON DUPLICATE KEY UPDATE, has the same insert-or-update
semantics on the same unique key), then SELECT the row back with fetchone. -/
def upsert_budget (s : DBState) (user_id : Nat) (category : String)
    (limit_amount : ℚ) (month year : Nat) : DBState × Option BudgetRow :=
  let key := budgetKeyMatch user_id category month year
  let updated :=
    s.budgets.map (fun b => if key b then { b with limit_amount := limit_amount } else b)
  let inserted :=
    s.budgets ++ [{ id := s.nextBudgetId, user_id := user_id, category := category,
                    limit_amount := limit_amount, month := month, year := year }]
  let s2 :=
    if s.budgets.any key then { s with budgets := updated }
    else { s with budgets := inserted, nextBudgetId := s.nextBudgetId + 1 }
  (s2, s2.budgets.find? key)

/-- Python f-string 02d padding used for the month in the date bounds. -/
def pad2 (n : Nat) : String := if n < 10 then "0" ++ toString n else toString n

/-- start_date of fetch_budget_status (database.py line 551). -/
def monthWindowStart (year month : Nat) : String :=
  toString year ++ "-" ++ pad2 month ++ "-01"

/-- end_date of fetch_budget_status (database.py line 552): first day of the
next month, rolling December into January of year + 1. -/
def monthWindowEnd (year month : Nat) : String :=
  if month == 12 then toString (year + 1) ++ "-01-01"
  else toString year ++ "-" ++ pad2 (month + 1) ++ "-01"

/-- Spending of one category inside the half-open date window
(database.py lines 558-568): the source issues one query grouped by category
over the categories of the listed budgets and reads each total back with
default 0.0; for each category of that list this equals the direct sum below,
because an empty group produces no row and is read back as 0.0, which is the
sum of the empty list. -/
def categorySpent (expenses : List ExpenseRow) (user_id : Nat)
    (category startD endD : String) : ℚ :=
  ((expenses.filter (fun e =>
      e.user_id == user_id && e.category == category
      && strLeB startD e.date && strLtB e.date endD)).map (fun e => e.amount)).sum

/-- One entry of the fetch_budget_status result (database.py lines 570-582). -/
structure BudgetStatus where
  category : String
  limit_amount : ℚ
  total_spent : ℚ
  remaining : ℚ
  percentage_used : ℚ
deriving DecidableEq

/-- The per-budget computation of fetch_budget_status (database.py lines
571-581): spent from the window query, remaining = limit - spent,
percentage = spent / limit * 100 when limit > 0 else 0.0, with the
Python roundings. -/
def budgetStatusOf (expenses : List ExpenseRow) (user_id : Nat)
    (startD endD : String) (b : BudgetRow) : BudgetStatus :=
  let spent := categorySpent expenses user_id b.category startD endD
  let remaining := b.limit_amount - spent
  let pct := if 0 < b.limit_amount then spent / b.limit_amount * 100 else 0
  { category := b.category, limit_amount := b.limit_amount,
    total_spent := roundTo 2 spent, remaining := roundTo 2 remaining,
    percentage_used := roundTo 1 pct }

/-- The WHERE clause of the budgets query of fetch_budget_status
(database.py lines 543-546). -/
def budgetMY (user_id month year : Nat) (b : BudgetRow) : Bool :=
  b.user_id == user_id && b.month == month && b.year == year

/-- fetch_budget_status (database.py lines 542-582): budgets of the user for
(month, year); empty list when there are none; otherwise one status entry per
budget row, spending summed over [YYYY-MM-01, next-month-01). -/
def fetch_budget_status (s : DBState) (user_id month year : Nat) :
    List BudgetStatus :=
  let bs := s.budgets.filter (budgetMY user_id month year)
  if bs.isEmpty then []
  else bs.map
    (budgetStatusOf s.expenses user_id (monthWindowStart year month) (monthWindowEnd year month))

/-! ### Users (database.py lines 360-386) -/

/-- A value in a result row sent back to the caller. -/
inductive SQLValue where
  | intV (n : Nat)
  | textV (s : String)
  | nullV
deriving DecidableEq

/-- The row shape produced by list_users for one user: the SELECT names
exactly id, name, email, created_at (database.py line 385). -/
def userPublicRow (u : UserRow) : List (String × SQLValue) :=
  [("id", SQLValue.intV u.id), ("name", SQLValue.textV u.name),
   ("email", (match u.email with
              | none => SQLValue.nullV
              | some e => SQLValue.textV e)),
   ("created_at", SQLValue.textV u.created_at)]

/-- list_users (database.py lines 383-386): SELECT id, name, email, created_at
FROM users, one mapping per row. -/
def list_users (s : DBState) : List (List (String × SQLValue)) :=
  s.users.map userPublicRow

/-! ### Invariants maintained by the schema -/

/-- Every stored expense id is below the AUTOINCREMENT counter, so the next
assigned id is fresh.  Holds in every state reachable from an empty database. -/
def expenseIdsFresh (s : DBState) : Prop :=
  ∀ e ∈ s.expenses, e.id < s.nextExpenseId

/-! ### Call wiring of the tool layer (src/tools, src/resources, src/main.py)

The tool modules are embedded at the granularity the claim about them needs:
which names each module defines and which arguments each database call
supplies.  These lists are transcribed from the source files named in the
doc comments. -/

/-- Parameters of db.insert_expense (database.py lines 393-399); none has a
default value, so every call must supply all six. -/
def insert_expense_params : List String :=
  ["user_id", "title", "amount", "category", "date", "notes"]

/-- Keyword arguments of the db.insert_expense call inside add_expense
(src/tools/expenses.py lines 125-131). -/
def add_expense_insert_call_kwargs : List String :=
  ["title", "amount", "category", "date", "notes"]

/-- Parameters of db.upsert_budget (database.py lines 508-513). -/
def upsert_budget_params : List String :=
  ["user_id", "category", "limit_amount", "month", "year"]

/-- Keyword arguments of the db.upsert_budget call inside set_budget
(src/tools/budgets.py lines 97-102). -/
def set_budget_upsert_call_kwargs : List String :=
  ["category", "limit_amount", "month", "year"]

/-- Module-level names defined by src/tools/expenses.py. -/
def tools_expenses_defs : List String :=
  ["ConfirmDelete", "_elicit_missing_fields", "add_expense", "get_expenses",
   "update_expense", "delete_expense", "get_summary", "get_top_expenses"]

/-- Module-level names defined by src/tools/budgets.py. -/
def tools_budgets_defs : List String :=
  ["set_budget", "get_budget_status"]

/-- Names src/main.py imports from tools.expenses (lines 104-108). -/
def main_imports_from_tools_expenses : List String :=
  ["add_expense", "get_expenses", "update_expense", "delete_expense",
   "get_summary", "get_top_expenses", "set_default_user_id"]

/-- Names src/main.py imports from tools.budgets (lines 109-112). -/
def main_imports_from_tools_budgets : List String :=
  ["set_budget", "get_budget_status", "set_default_user_id"]

/-- Module-level names defined by src/resources/expense_resources.py, the one
module that does keep the process-wide active-owner variable. -/
def resources_defs : List String :=
  ["_DEFAULT_USER_ID", "set_default_user_id", "get_all_expenses",
   "get_expense_summary", "get_categories", "get_budget_status_resource"]

/-! ### Concrete states used by the witnesses -/

/-- The default user created by _ensure_default_user (database.py lines
275-281). -/
def userDefault : UserRow :=
  { id := 1, name := "Default User", email := some "local@localhost",
    api_key := "default-local-key", created_at := "2024-01-01 00:00:00" }

/-- A March expense (the scenario of the spec: Coffee, 4.50, Food,
2024-03-01). -/
def expCoffee : ExpenseRow :=
  { id := 1, user_id := 1, title := "Coffee", amount := 9 / 2,
    category := "Food", date := "2024-03-01", notes := none,
    created_at := "2024-03-01 10:00:00", updated_at := "2024-03-01 10:00:00" }

/-- An expense on the last day of December. -/
def expDec : ExpenseRow :=
  { id := 2, user_id := 1, title := "Gift", amount := 30,
    category := "Food", date := "2024-12-31", notes := some "wrap it",
    created_at := "2024-12-31 09:00:00", updated_at := "2024-12-31 09:00:00" }

/-- An expense on January 1 of the following year. -/
def expJan : ExpenseRow :=
  { id := 3, user_id := 1, title := "Party", amount := 20,
    category := "Food", date := "2025-01-01", notes := none,
    created_at := "2025-01-01 09:00:00", updated_at := "2025-01-01 09:00:00" }

/-- A budget with limit 0 for March 2024. -/
def budgetFoodZero : BudgetRow :=
  { id := 1, user_id := 1, category := "Food", limit_amount := 0,
    month := 3, year := 2024 }

/-- A budget of 100 for December 2024. -/
def budgetFoodDec : BudgetRow :=
  { id := 2, user_id := 1, category := "Food", limit_amount := 100,
    month := 12, year := 2024 }

/-- A populated concrete database state. -/
def dbW : DBState :=
  { users := [userDefault], expenses := [expCoffee, expDec, expJan],
    budgets := [budgetFoodZero, budgetFoodDec],
    nextExpenseId := 4, nextBudgetId := 3, nextUserId := 2 }

/-- The empty database state right after init_db on a fresh file, before the
default user is inserted. -/
def dbEmpty : DBState :=
  { users := [], expenses := [], budgets := [],
    nextExpenseId := 1, nextBudgetId := 1, nextUserId := 1 }

/-- A partial update supplying only a new title. -/
def fEsp : UpdateFields :=
  { title := some "Espresso", amount := none, category := none,
    date := none, notes := none }

/-- The empty partial update (no keyword arguments). -/
def fNone : UpdateFields :=
  { title := none, amount := none, category := none, date := none, notes := none }

/-! ### Helper lemmas -/

theorem mem_fetch_expenses {s : DBState} {uid : Nat}
    {category start_date end_date : Option String} {limit : Nat} {e : ExpenseRow}
    (he : e ∈ fetch_expenses s uid category start_date end_date limit) :
    e ∈ s.expenses ∧ expFilter uid category start_date end_date e = true := by
  unfold fetch_expenses at he
  have h1 := (List.take_sublist _ _).subset he
  have h2 := (mem_sortByB _ _ _).mp h1
  exact List.mem_filter.mp h2

theorem expFilter_user {uid : Nat} {category start_date end_date : Option String}
    {e : ExpenseRow} (h : expFilter uid category start_date end_date e = true) :
    e.user_id = uid := by
  unfold expFilter at h
  simp only [Bool.and_eq_true, beq_iff_eq] at h
  exact h.1.1.1

theorem dateDescB_total : ∀ p q, (dateDescB p q || dateDescB q p) = true := by
  intro p q
  exact strLeB_total q.date p.date

theorem dateDescB_trans : ∀ p q r, dateDescB p q = true → dateDescB q r = true →
    dateDescB p r = true := by
  intro p q r h1 h2
  exact strLeB_trans r.date q.date p.date h2 h1

theorem upsert_budget_expenses (s : DBState) (u : Nat) (c : String) (l : ℚ)
    (m y : Nat) : (upsert_budget s u c l m y).1.expenses = s.expenses := by
  unfold upsert_budget
  dsimp only
  split <;> rfl

theorem budgetKeyMatch_update (u : Nat) (c : String) (m y : Nat) (l : ℚ)
    (b : BudgetRow) :
    budgetKeyMatch u c m y
        (if budgetKeyMatch u c m y b then { b with limit_amount := l } else b)
      = budgetKeyMatch u c m y b := by
  by_cases h : budgetKeyMatch u c m y b = true
  · rw [if_pos h]
    simp [budgetKeyMatch]
  · rw [if_neg h]

theorem upsert_budget_count (s : DBState) (u : Nat) (c : String) (l : ℚ)
    (m y : Nat) (hinv : budgetKeyCount s u c m y ≤ 1) :
    budgetKeyCount (upsert_budget s u c l m y).1 u c m y = 1 := by
  simp only [budgetKeyCount] at hinv ⊢
  unfold upsert_budget
  dsimp only
  by_cases h : s.budgets.any (budgetKeyMatch u c m y) = true
  · rw [if_pos h]
    dsimp only
    rw [List.countP_map]
    have hc : List.countP
        ((budgetKeyMatch u c m y) ∘
          (fun b => if budgetKeyMatch u c m y b then { b with limit_amount := l } else b))
        s.budgets = List.countP (budgetKeyMatch u c m y) s.budgets := by
      apply List.countP_congr
      intro b _
      rw [Function.comp_apply, budgetKeyMatch_update]
    rw [hc]
    rcases List.any_eq_true.mp h with ⟨b, hb, hkey⟩
    have hpos : 0 < List.countP (budgetKeyMatch u c m y) s.budgets :=
      List.countP_pos_iff.mpr ⟨b, hb, hkey⟩
    omega
  · rw [if_neg h]
    dsimp only
    rw [List.countP_append]
    have hz : List.countP (budgetKeyMatch u c m y) s.budgets = 0 := by
      apply List.countP_eq_zero.mpr
      intro b hb hkey
      exact h (List.any_eq_true.mpr ⟨b, hb, hkey⟩)
    rw [hz]
    simp [budgetKeyMatch]

theorem upsert_budget_limit (s : DBState) (u : Nat) (c : String) (l : ℚ)
    (m y : Nat) :
    ∀ b ∈ (upsert_budget s u c l m y).1.budgets,
      budgetKeyMatch u c m y b = true → b.limit_amount = l := by
  unfold upsert_budget
  dsimp only
  by_cases h : s.budgets.any (budgetKeyMatch u c m y) = true
  · rw [if_pos h]
    dsimp only
    intro b hb hkey
    rcases List.mem_map.mp hb with ⟨b0, _, rfl⟩
    by_cases hk0 : budgetKeyMatch u c m y b0 = true
    · rw [if_pos hk0]
    · rw [if_neg hk0] at hkey
      exact absurd hkey hk0
  · rw [if_neg h]
    dsimp only
    intro b hb hkey
    rcases List.mem_append.mp hb with hb1 | hb2
    · exact absurd (List.any_eq_true.mpr ⟨b, hb1, hkey⟩) h
    · rw [List.mem_singleton.mp hb2]

theorem fetch_budget_status_congr {s1 s2 : DBState} (uid month year : Nat)
    (hexp : s1.expenses = s2.expenses)
    (hbud : s1.budgets.filter (budgetMY uid month year)
      = s2.budgets.filter (budgetMY uid month year)) :
    fetch_budget_status s1 uid month year = fetch_budget_status s2 uid month year := by
  unfold fetch_budget_status
  rw [hexp, hbud]

theorem upsert_budget_filter_other (s : DBState) (u1 u2 : Nat) (hne : u1 ≠ u2)
    (c : String) (l : ℚ) (m y : Nat) (month year : Nat) :
    (upsert_budget s u1 c l m y).1.budgets.filter (budgetMY u2 month year)
      = s.budgets.filter (budgetMY u2 month year) := by
  unfold upsert_budget
  dsimp only
  by_cases h : s.budgets.any (budgetKeyMatch u1 c m y) = true
  · rw [if_pos h]
    dsimp only
    rw [List.filter_map]
    have h1 : (budgetMY u2 month year) ∘
        (fun b => if budgetKeyMatch u1 c m y b then { b with limit_amount := l } else b)
        = budgetMY u2 month year := by
      funext b
      by_cases hk : budgetKeyMatch u1 c m y b = true
      · simp only [Function.comp_apply, if_pos hk]
        rfl
      · simp only [Function.comp_apply, if_neg hk]
    rw [h1]
    have h2 : ∀ b ∈ s.budgets.filter (budgetMY u2 month year),
        (if budgetKeyMatch u1 c m y b then { b with limit_amount := l } else b) = id b := by
      intro b hb
      have hu : b.user_id = u2 := by
        have hf := (List.mem_filter.mp hb).2
        simp only [budgetMY, Bool.and_eq_true, beq_iff_eq] at hf
        exact hf.1.1
      rw [if_neg ?_]
      · rfl
      · intro hk
        simp only [budgetKeyMatch, Bool.and_eq_true, beq_iff_eq] at hk
        exact hne (by rw [← hk.1.1.1, hu])
    rw [List.map_congr_left h2, List.map_id]
  · rw [if_neg h]
    dsimp only
    rw [List.filter_append]
    have hb : (u1 == u2) = false := beq_eq_false_iff_ne.mpr hne
    have h3 : List.filter (budgetMY u2 month year)
        [{ id := s.nextBudgetId, user_id := u1, category := c,
           limit_amount := l, month := m, year := y }] = [] := by
      simp [budgetMY, List.filter, hb]
    rw [h3, List.append_nil]

/-! ### Claims -/

/-- C10: every mapping in the list returned by list_users carries exactly the
fields id, name, email, created_at, and never an api_key field, even though
the stored user rows hold one. -/
theorem list_users_hides_api_key (s : DBState) :
    ∀ row ∈ list_users s,
      row.map Prod.fst = ["id", "name", "email", "created_at"]
      ∧ "api_key" ∉ row.map Prod.fst := by
  intro row hrow
  rcases List.mem_map.mp hrow with ⟨u, _, rfl⟩
  refine ⟨rfl, ?_⟩
  simp [userPublicRow]

/-- Witness for C10 at a user row that does store an api_key. -/
theorem list_users_hides_api_key_witness :
    userPublicRow userDefault ∈ list_users dbW
    ∧ (userPublicRow userDefault).map Prod.fst = ["id", "name", "email", "created_at"]
    ∧ "api_key" ∉ (userPublicRow userDefault).map Prod.fst := by
  have hmem : userPublicRow userDefault ∈ list_users dbW := by
    exact List.mem_singleton.mpr rfl
  exact ⟨hmem, (list_users_hides_api_key dbW (userPublicRow userDefault) hmem).1,
    (list_users_hides_api_key dbW (userPublicRow userDefault) hmem).2⟩

/-- C3: a budget row whose limit amount is 0 is emitted by fetch_budget_status
with percentage_used exactly 0, whatever was spent in the category; the
computation is total (no division error, no infinity). -/
theorem budget_status_zero_limit_pct (s : DBState) (uid month year : Nat) :
    ∀ st ∈ fetch_budget_status s uid month year,
      st.limit_amount = 0 → st.percentage_used = 0 := by
  intro st hst hz
  unfold fetch_budget_status at hst
  dsimp only at hst
  split at hst
  · exact absurd hst (List.not_mem_nil st)
  · rcases List.mem_map.mp hst with ⟨b, _, rfl⟩
    simp only [budgetStatusOf] at hz ⊢
    rw [hz, if_neg (lt_irrefl 0)]
    exact roundTo_zero 1

/-- Witness for C3: in dbW the March 2024 Food budget has limit 0 while 4.50
was spent in Food that month, and the emitted percentage is 0. -/
theorem budget_status_zero_limit_pct_witness :
    budgetStatusOf dbW.expenses 1 (monthWindowStart 2024 3) (monthWindowEnd 2024 3)
        budgetFoodZero ∈ fetch_budget_status dbW 1 3 2024
    ∧ (budgetStatusOf dbW.expenses 1 (monthWindowStart 2024 3) (monthWindowEnd 2024 3)
        budgetFoodZero).limit_amount = 0
    ∧ (budgetStatusOf dbW.expenses 1 (monthWindowStart 2024 3) (monthWindowEnd 2024 3)
        budgetFoodZero).percentage_used = 0 := by
  have hmem : budgetStatusOf dbW.expenses 1 (monthWindowStart 2024 3) (monthWindowEnd 2024 3)
      budgetFoodZero ∈ fetch_budget_status dbW 1 3 2024 := by
    have h1 : fetch_budget_status dbW 1 3 2024
        = [budgetStatusOf dbW.expenses 1 (monthWindowStart 2024 3) (monthWindowEnd 2024 3)
            budgetFoodZero] := rfl
    rw [h1]
    exact List.mem_singleton.mpr rfl
  exact ⟨hmem, rfl, budget_status_zero_limit_pct dbW 1 3 2024 _ hmem rfl⟩

/-- C6: delete_expense answers true exactly when a row with that id and owner
existed (and it removes it); a second delete of the same id answers false, and
a missing row yields the false result, not an exception (the function is
total). -/
theorem delete_expense_spec (s : DBState) (uid eid : Nat) :
    ((delete_expense s uid eid).2 = true ↔ ∃ e ∈ s.expenses, e.id = eid ∧ e.user_id = uid)
    ∧ (delete_expense (delete_expense s uid eid).1 uid eid).2 = false := by
  constructor
  · unfold delete_expense
    dsimp only
    rw [decide_eq_true_eq, List.length_filter_lt_length_iff_exists]
    constructor
    · rintro ⟨e, he, hp⟩
      refine ⟨e, he, ?_⟩
      simp only [Bool.not_eq_true', Bool.not_eq_false, Bool.and_eq_true, beq_iff_eq] at hp
      exact hp
    · rintro ⟨e, he, h1, h2⟩
      refine ⟨e, he, ?_⟩
      simp only [Bool.not_eq_true', Bool.not_eq_false, Bool.and_eq_true, beq_iff_eq]
      exact ⟨h1, h2⟩
  · unfold delete_expense
    dsimp only
    have hff : (s.expenses.filter
          (fun e => !(e.id == eid && e.user_id == uid))).filter
          (fun e => !(e.id == eid && e.user_id == uid))
        = s.expenses.filter (fun e => !(e.id == eid && e.user_id == uid)) := by
      rw [List.filter_filter]
      apply List.filter_congr
      intro x _
      rw [Bool.and_self]
    rw [hff]
    simp

/-- C2: two upsert_budget calls with the same (owner, category, month, year)
key and different limits leave exactly one budget row for that key, and its
limit_amount is the value of the second call; the hypothesis is the UNIQUE
constraint of the budgets table on the starting state. -/
theorem upsert_budget_twice (s : DBState) (uid : Nat) (cat : String)
    (l1 l2 : ℚ) (month year : Nat)
    (hinv : budgetKeyCount s uid cat month year ≤ 1) :
    budgetKeyCount
        (upsert_budget (upsert_budget s uid cat l1 month year).1 uid cat l2 month year).1
        uid cat month year = 1
    ∧ ∀ b ∈ (upsert_budget (upsert_budget s uid cat l1 month year).1
          uid cat l2 month year).1.budgets,
        budgetKeyMatch uid cat month year b = true → b.limit_amount = l2 := by
  have h1 := upsert_budget_count s uid cat l1 month year hinv
  have h2 := upsert_budget_count (upsert_budget s uid cat l1 month year).1
    uid cat l2 month year (by omega)
  exact ⟨h2, upsert_budget_limit _ _ _ _ _ _⟩

/-- Witness for C2: upserting Food March 2024 twice (limits 50 then 80) on the
empty database leaves one row with limit 80. -/
theorem upsert_budget_twice_witness :
    budgetKeyCount dbEmpty 1 "Food" 3 2024 ≤ 1
    ∧ budgetKeyCount
        (upsert_budget (upsert_budget dbEmpty 1 "Food" 50 3 2024).1 1 "Food" 80 3 2024).1
        1 "Food" 3 2024 = 1
    ∧ ∀ b ∈ (upsert_budget (upsert_budget dbEmpty 1 "Food" 50 3 2024).1
          1 "Food" 80 3 2024).1.budgets,
        budgetKeyMatch 1 "Food" 3 2024 b = true → b.limit_amount = 80 :=
  ⟨by decide, (upsert_budget_twice dbEmpty 1 "Food" 50 80 3 2024 (by decide)).1,
    (upsert_budget_twice dbEmpty 1 "Food" 50 80 3 2024 (by decide)).2⟩

/-- C7: fetch_expense_by_id right after insert_expense, with the returned id
and the same owner, returns a row whose title, amount, category, date and
notes equal the inserted values; the hypothesis is id freshness, which the
AUTOINCREMENT key guarantees. -/
theorem insert_fetch_roundtrip (s : DBState) (uid : Nat) (title : String)
    (amount : ℚ) (category date : String) (notes : Option String) (now : String)
    (hfresh : expenseIdsFresh s) :
    fetch_expense_by_id (insert_expense s uid title amount category date notes now).1 uid
        (insert_expense s uid title amount category date notes now).2.id
      = some (insert_expense s uid title amount category date notes now).2
    ∧ (insert_expense s uid title amount category date notes now).2.title = title
    ∧ (insert_expense s uid title amount category date notes now).2.amount = amount
    ∧ (insert_expense s uid title amount category date notes now).2.category = category
    ∧ (insert_expense s uid title amount category date notes now).2.date = date
    ∧ (insert_expense s uid title amount category date notes now).2.notes = notes := by
  refine ⟨?_, rfl, rfl, rfl, rfl, rfl⟩
  unfold insert_expense fetch_expense_by_id
  dsimp only
  rw [List.find?_append]
  have hnone : s.expenses.find?
      (fun e => e.id == s.nextExpenseId && e.user_id == uid) = none := by
    apply List.find?_eq_none.mpr
    intro e he
    have hlt := hfresh e he
    simp only [Bool.and_eq_true, beq_iff_eq, not_and]
    intro hid
    omega
  rw [hnone]
  simp [List.find?]

/-- Witness for C7 on the populated state dbW. -/
theorem insert_fetch_roundtrip_witness :
    expenseIdsFresh dbW
    ∧ fetch_expense_by_id
        (insert_expense dbW 1 "Tea" 3 "Food" "2024-03-05" none "2024-03-05 08:00:00").1 1
        (insert_expense dbW 1 "Tea" 3 "Food" "2024-03-05" none "2024-03-05 08:00:00").2.id
      = some (insert_expense dbW 1 "Tea" 3 "Food" "2024-03-05" none "2024-03-05 08:00:00").2
    ∧ (insert_expense dbW 1 "Tea" 3 "Food" "2024-03-05" none "2024-03-05 08:00:00").2.title
      = "Tea" :=
  ⟨by unfold expenseIdsFresh; decide,
    (insert_fetch_roundtrip dbW 1 "Tea" 3 "Food" "2024-03-05" none "2024-03-05 08:00:00"
      (by unfold expenseIdsFresh; decide)).1,
    (insert_fetch_roundtrip dbW 1 "Tea" 3 "Food" "2024-03-05" none "2024-03-05 08:00:00"
      (by unfold expenseIdsFresh; decide)).2.1⟩

/-- C5: update_expense applies exactly the supplied fields and refreshes
updated_at, leaving id, owner, created_at and every unsupplied field
unchanged; an empty field set is a no-op returning the current row; an
unknown id or one owned by another user yields the absence marker and leaves
the table unchanged. -/
theorem update_expense_spec (s : DBState) (uid eid : Nat) (f : UpdateFields)
    (now : String) :
    (f.isEmpty = true →
      update_expense s uid eid f now = (s, fetch_expense_by_id s uid eid))
    ∧ (f.isEmpty = false → fetch_expense_by_id s uid eid = none →
      update_expense s uid eid f now = (s, none))
    ∧ (∀ e0, f.isEmpty = false → fetch_expense_by_id s uid eid = some e0 →
      (update_expense s uid eid f now).2 = some (applyFields f now e0))
    ∧ (∀ e0, (applyFields f now e0).id = e0.id
      ∧ (applyFields f now e0).user_id = e0.user_id
      ∧ (applyFields f now e0).created_at = e0.created_at
      ∧ (applyFields f now e0).updated_at = now
      ∧ (f.title = none → (applyFields f now e0).title = e0.title)
      ∧ (f.amount = none → (applyFields f now e0).amount = e0.amount)
      ∧ (f.category = none → (applyFields f now e0).category = e0.category)
      ∧ (f.date = none → (applyFields f now e0).date = e0.date)
      ∧ (f.notes = none → (applyFields f now e0).notes = e0.notes)
      ∧ (∀ v, f.title = some v → (applyFields f now e0).title = v)
      ∧ (∀ v, f.amount = some v → (applyFields f now e0).amount = v)
      ∧ (∀ v, f.category = some v → (applyFields f now e0).category = v)
      ∧ (∀ v, f.date = some v → (applyFields f now e0).date = v)
      ∧ (∀ v, f.notes = some v → (applyFields f now e0).notes = v)) := by
  have hcomp : (fun e : ExpenseRow => e.id == eid && e.user_id == uid) ∘
      (fun e => if e.id == eid && e.user_id == uid then applyFields f now e else e)
      = (fun e : ExpenseRow => e.id == eid && e.user_id == uid) := by
    funext e
    by_cases hp : (e.id == eid && e.user_id == uid) = true
    · simp only [Function.comp_apply, if_pos hp]
      rfl
    · simp only [Function.comp_apply, if_neg hp]
  refine ⟨?_, ?_, ?_, ?_⟩
  · intro h
    unfold update_expense
    rw [if_pos h]
  · intro h hnone
    unfold update_expense
    rw [if_neg (by simp [h])]
    dsimp only
    have hall := List.find?_eq_none.mp hnone
    have hmap : s.expenses.map
        (fun e => if e.id == eid && e.user_id == uid then applyFields f now e else e)
        = s.expenses := by
      have := List.map_congr_left (l := s.expenses)
        (f := fun e : ExpenseRow =>
          if e.id == eid && e.user_id == uid then applyFields f now e else e)
        (g := id) ?_
      · rw [this, List.map_id]
      · intro e he
        dsimp only
        rw [if_neg (hall e he)]
        rfl
    simp only [Prod.mk.injEq]
    refine ⟨?_, ?_⟩
    · rw [hmap]
    · unfold fetch_expense_by_id
      dsimp only
      have hnone2 : List.find? (fun e => e.id == eid && e.user_id == uid) s.expenses
          = none := hnone
      rw [List.find?_map, hcomp, hnone2]
      rfl
  · intro e0 h hsome
    unfold update_expense
    rw [if_neg (by simp [h])]
    dsimp only
    unfold fetch_expense_by_id at hsome ⊢
    dsimp only
    rw [List.find?_map, hcomp, hsome]
    have hp := List.find?_some hsome
    simp only [Option.map_some']
    rw [if_pos hp]
  · intro e0
    refine ⟨rfl, rfl, rfl, rfl, ?_, ?_, ?_, ?_, ?_, ?_, ?_, ?_, ?_, ?_⟩
    · intro h; simp [applyFields, h]
    · intro h; simp [applyFields, h]
    · intro h; simp [applyFields, h]
    · intro h; simp [applyFields, h]
    · intro h; simp [applyFields, h]
    · intro v h; simp [applyFields, h]
    · intro v h; simp [applyFields, h]
    · intro v h; simp [applyFields, h]
    · intro v h; simp [applyFields, h]
    · intro v h; simp [applyFields, h]

/-- Witness for C5: updating only the title of expense 1 in dbW yields the row
with the new title, the old amount and the refreshed timestamp. -/
theorem update_expense_spec_witness :
    fEsp.isEmpty = false
    ∧ fetch_expense_by_id dbW 1 1 = some expCoffee
    ∧ (update_expense dbW 1 1 fEsp "2024-03-06 00:00:00").2
      = some (applyFields fEsp "2024-03-06 00:00:00" expCoffee) :=
  ⟨by decide, rfl,
    (update_expense_spec dbW 1 1 fEsp "2024-03-06 00:00:00").2.2.1 expCoffee (by decide) rfl⟩

/-- C8: fetch_expenses returns only rows of the owner satisfying every
supplied filter (absent or empty-string filters constrain nothing), in
date-descending order, and at most `limit` rows (the source default for
limit is 50). -/
theorem fetch_expenses_spec (s : DBState) (uid : Nat)
    (category start_date end_date : Option String) (limit : Nat) :
    (∀ e ∈ fetch_expenses s uid category start_date end_date limit,
      e ∈ s.expenses ∧ e.user_id = uid
      ∧ (∀ c, category = some c → truthy category = true → e.category = c)
      ∧ (∀ d, start_date = some d → truthy start_date = true → strLeB d e.date = true)
      ∧ (∀ d, end_date = some d → truthy end_date = true → strLeB e.date d = true))
    ∧ List.Pairwise (fun a b => strLeB b.date a.date = true)
        (fetch_expenses s uid category start_date end_date limit)
    ∧ (fetch_expenses s uid category start_date end_date limit).length ≤ limit := by
  refine ⟨?_, ?_, ?_⟩
  · intro e he
    obtain ⟨hmem, hfil⟩ := mem_fetch_expenses he
    refine ⟨hmem, expFilter_user hfil, ?_, ?_, ?_⟩
    · intro c hc ht
      unfold expFilter at hfil
      simp only [Bool.and_eq_true] at hfil
      have h1 := hfil.1.1.2
      rw [if_pos ht, hc] at h1
      simpa using h1
    · intro d hd ht
      unfold expFilter at hfil
      simp only [Bool.and_eq_true] at hfil
      have h1 := hfil.1.2
      rw [if_pos ht, hd] at h1
      simpa using h1
    · intro d hd ht
      unfold expFilter at hfil
      simp only [Bool.and_eq_true] at hfil
      have h1 := hfil.2
      rw [if_pos ht, hd] at h1
      simpa using h1
  · unfold fetch_expenses
    exact List.Pairwise.sublist (List.take_sublist _ _)
      (pairwise_sortByB dateDescB dateDescB_total dateDescB_trans _)
  · unfold fetch_expenses
    exact List.length_take_le _ _

/-- Witness for C8: on dbW with no filters the result is the three expenses in
date-descending order. -/
theorem fetch_expenses_spec_witness :
    expCoffee ∈ fetch_expenses dbW 1 none none none 50
    ∧ expCoffee ∈ dbW.expenses ∧ expCoffee.user_id = 1
    ∧ List.Pairwise (fun a b => strLeB b.date a.date = true)
        (fetch_expenses dbW 1 none none none 50)
    ∧ (fetch_expenses dbW 1 none none none 50).length ≤ 50 := by
  have heval : fetch_expenses dbW 1 none none none 50 = [expJan, expDec, expCoffee] := rfl
  have hmem : expCoffee ∈ fetch_expenses dbW 1 none none none 50 := by
    rw [heval]
    simp
  have h := fetch_expenses_spec dbW 1 none none none 50
  exact ⟨hmem, (h.1 expCoffee hmem).1, (h.1 expCoffee hmem).2.1, h.2.1, h.2.2⟩

/-- C9: the claimed wiring does not hold in the source: db.insert_expense and
db.upsert_budget require a user_id argument, but the tool-layer calls in
tools/expenses.py and tools/budgets.py supply none, and main.py imports a
set_default_user_id from both tool modules that neither defines (only the
resources module defines the active-owner variable and its setter). -/
theorem tools_owner_wiring_bug :
    "user_id" ∈ insert_expense_params
    ∧ "user_id" ∉ add_expense_insert_call_kwargs
    ∧ "user_id" ∈ upsert_budget_params
    ∧ "user_id" ∉ set_budget_upsert_call_kwargs
    ∧ "set_default_user_id" ∈ main_imports_from_tools_expenses
    ∧ "set_default_user_id" ∉ tools_expenses_defs
    ∧ "set_default_user_id" ∈ main_imports_from_tools_budgets
    ∧ "set_default_user_id" ∉ tools_budgets_defs
    ∧ "set_default_user_id" ∈ resources_defs := by
  decide

/-- C4: every status entry of fetch_budget_status sums expenses over the
half-open window [YYYY-MM-01, next-month-01); for month 12 the upper bound is
January 1 of year + 1, so a December 31 date is inside the window and the next
January 1 is outside it. -/
theorem budget_status_window (s : DBState) (uid month year : Nat) :
    (∀ st ∈ fetch_budget_status s uid month year,
      st.total_spent = roundTo 2 (((s.expenses.filter (fun e =>
        e.user_id == uid && e.category == st.category
        && strLeB (monthWindowStart year month) e.date
        && strLtB e.date (monthWindowEnd year month))).map (fun e => e.amount)).sum))
    ∧ monthWindowEnd year 12 = toString (year + 1) ++ "-01-01"
    ∧ (strLeB (monthWindowStart 2024 12) "2024-12-31"
        && strLtB "2024-12-31" (monthWindowEnd 2024 12)) = true
    ∧ strLtB "2025-01-01" (monthWindowEnd 2024 12) = false := by
  refine ⟨?_, rfl, by decide, by decide⟩
  intro st hst
  unfold fetch_budget_status at hst
  dsimp only at hst
  split at hst
  · exact absurd hst (List.not_mem_nil st)
  · rcases List.mem_map.mp hst with ⟨b, _, rfl⟩
    rfl

/-- Witness for C4: the December 2024 budget status of dbW counts the
December 31 expense (30) and not the January 1 expense. -/
theorem budget_status_window_witness :
    budgetStatusOf dbW.expenses 1 (monthWindowStart 2024 12) (monthWindowEnd 2024 12)
        budgetFoodDec ∈ fetch_budget_status dbW 1 12 2024
    ∧ (budgetStatusOf dbW.expenses 1 (monthWindowStart 2024 12) (monthWindowEnd 2024 12)
        budgetFoodDec).total_spent
      = roundTo 2 (((dbW.expenses.filter (fun e =>
          e.user_id == 1
          && e.category == (budgetStatusOf dbW.expenses 1 (monthWindowStart 2024 12)
              (monthWindowEnd 2024 12) budgetFoodDec).category
          && strLeB (monthWindowStart 2024 12) e.date
          && strLtB e.date (monthWindowEnd 2024 12))).map (fun e => e.amount)).sum)
    ∧ (budgetStatusOf dbW.expenses 1 (monthWindowStart 2024 12) (monthWindowEnd 2024 12)
        budgetFoodDec).total_spent = 30 := by
  have hmem : budgetStatusOf dbW.expenses 1 (monthWindowStart 2024 12) (monthWindowEnd 2024 12)
      budgetFoodDec ∈ fetch_budget_status dbW 1 12 2024 := by
    have h1 : fetch_budget_status dbW 1 12 2024
        = [budgetStatusOf dbW.expenses 1 (monthWindowStart 2024 12) (monthWindowEnd 2024 12)
            budgetFoodDec] := rfl
    rw [h1]
    exact List.mem_singleton.mpr rfl
  refine ⟨hmem, (budget_status_window dbW 1 12 2024).1 _ hmem, ?_⟩
  have h2 : categorySpent dbW.expenses 1 budgetFoodDec.category (monthWindowStart 2024 12)
      (monthWindowEnd 2024 12) = ([expDec].map (fun e => e.amount)).sum := rfl
  show roundTo 2 (categorySpent dbW.expenses 1 budgetFoodDec.category (monthWindowStart 2024 12)
      (monthWindowEnd 2024 12)) = 30
  rw [h2]
  show roundTo 2 ((30 : ℚ) + 0) = 30
  norm_num [roundTo, pyRound, Rat.floor_def']


/-- C1: a row inserted for owner u1 is invisible to a different owner u2: it is
never returned by fetch_expenses for u2, fetch_expense_by_id for u2 answers the
absence marker even at its id, the category list of u2 is unchanged, and a
budget upserted for u1 leaves the budget status of u2 unchanged. -/
theorem multi_user_isolation (s : DBState) (u1 u2 : Nat) (hne : u1 ≠ u2)
    (title : String) (amount : ℚ) (cat date : String) (notes : Option String)
    (now : String) (hfresh : expenseIdsFresh s) :
    (∀ category start_date end_date limit,
      (insert_expense s u1 title amount cat date notes now).2
        ∉ fetch_expenses (insert_expense s u1 title amount cat date notes now).1 u2
            category start_date end_date limit)
    ∧ fetch_expense_by_id (insert_expense s u1 title amount cat date notes now).1 u2
        (insert_expense s u1 title amount cat date notes now).2.id = none
    ∧ fetch_all_categories (insert_expense s u1 title amount cat date notes now).1 u2
        = fetch_all_categories s u2
    ∧ (∀ bcat blim bmonth byear month year,
        fetch_budget_status (upsert_budget s u1 bcat blim bmonth byear).1 u2 month year
          = fetch_budget_status s u2 month year) := by
  refine ⟨?_, ?_, ?_, ?_⟩
  · intro category start_date end_date limit hmem
    obtain ⟨_, hfil⟩ := mem_fetch_expenses hmem
    have hu : (insert_expense s u1 title amount cat date notes now).2.user_id = u2 :=
      expFilter_user hfil
    exact hne hu
  · unfold insert_expense fetch_expense_by_id
    dsimp only
    rw [List.find?_append]
    have hnone : s.expenses.find?
        (fun e => e.id == s.nextExpenseId && e.user_id == u2) = none := by
      apply List.find?_eq_none.mpr
      intro e he
      have hlt := hfresh e he
      simp only [Bool.and_eq_true, beq_iff_eq, not_and]
      intro hid
      omega
    rw [hnone]
    have hb : (u1 == u2) = false := beq_eq_false_iff_ne.mpr hne
    simp [List.find?, hb]
  · unfold insert_expense fetch_all_categories
    dsimp only
    rw [List.filter_append]
    have hb : (u1 == u2) = false := beq_eq_false_iff_ne.mpr hne
    have h3 : List.filter (fun e : ExpenseRow => e.user_id == u2)
        [{ id := s.nextExpenseId, user_id := u1, title := title, amount := amount,
           category := cat, date := date, notes := notes,
           created_at := now, updated_at := now }] = [] := by
      simp [List.filter, hb]
    rw [h3, List.append_nil]
  · intro bcat blim bmonth byear month year
    exact fetch_budget_status_congr u2 month year
      (upsert_budget_expenses s u1 bcat blim bmonth byear)
      (upsert_budget_filter_other s u1 u2 hne bcat blim bmonth byear month year)

/-- Witness for C1: user 2 inserting into dbW is invisible to user 1. -/
theorem multi_user_isolation_witness :
    (2 : Nat) ≠ 1
    ∧ expenseIdsFresh dbW
    ∧ (∀ category start_date end_date limit,
        (insert_expense dbW 2 "Coffee" 5 "Food" "2024-03-01" none "2024-03-01 11:00:00").2
          ∉ fetch_expenses
              (insert_expense dbW 2 "Coffee" 5 "Food" "2024-03-01" none "2024-03-01 11:00:00").1
              1 category start_date end_date limit)
    ∧ fetch_expense_by_id
        (insert_expense dbW 2 "Coffee" 5 "Food" "2024-03-01" none "2024-03-01 11:00:00").1 1
        (insert_expense dbW 2 "Coffee" 5 "Food" "2024-03-01" none "2024-03-01 11:00:00").2.id
      = none
    ∧ fetch_all_categories
        (insert_expense dbW 2 "Coffee" 5 "Food" "2024-03-01" none "2024-03-01 11:00:00").1 1
      = fetch_all_categories dbW 1
    ∧ (∀ month year,
        fetch_budget_status (upsert_budget dbW 2 "Travel" 70 3 2024).1 1 month year
          = fetch_budget_status dbW 1 month year) := by
  have h := multi_user_isolation dbW 2 1 (by decide) "Coffee" 5 "Food" "2024-03-01" none
    "2024-03-01 11:00:00" (by unfold expenseIdsFresh; decide)
  exact ⟨by decide, by unfold expenseIdsFresh; decide, h.1, h.2.1, h.2.2.1,
    fun month year => h.2.2.2 "Travel" 70 3 2024 month year⟩

end ExpenseTracker
